import Mathlib

/-!
Shallow embedding of the library-catalog service (users, books, checkout
ledger) and of its route handlers, together with theorems about the
availability/checkout state machine, the trending calculator and the
recommendation engine.

Modelling conventions:
* SQL rows become Lean structures; a table is a `List` of rows, kept in
  insertion order (SQLite natural row order).
* Timestamps are seconds since an arbitrary epoch (`Nat`); the code stores
  `'%Y-%m-%d %H:%M:%S'` strings whose lexicographic order agrees with
  chronological order, so `≤` on `Nat` models the SQL string comparison.
  The 7-day loan period / trending window is `7 * 86400` seconds.
* `SELECT ... WHERE pk = ?` with `fetchone` becomes `List.find?`;
  `UPDATE ... WHERE pk = ?` becomes `List.map` over the table, rewriting
  every matching row; `INSERT` appends at the end; AUTOINCREMENT ids are
  modelled as one more than the maximum id present.
* Each handler takes the current time `now` explicitly and returns a
  response value paired with the post-state of the store.
-/

/-- A row of the `users` table. -/
structure User where
  user_id : Nat
  username : String
  password : String
  created_at : Nat
deriving DecidableEq, Repr

/-- A row of the `books` table.  `author` is NOT NULL in the schema;
`year_published`, `genre`, `isbn`, `image_url` are nullable, as are the
availability fields `booked_by_user_id` and `due_date`. -/
structure Book where
  book_id : Nat
  isbn : Option String
  title : String
  author : String
  year_published : Option Nat
  genre : Option String
  image_url : Option String
  is_booked : Nat
  booked_by_user_id : Option Nat
  due_date : Option Nat
deriving DecidableEq, Repr

/-- A row of the `checkouts` table (the append-only ledger). -/
structure Checkout where
  checkout_id : Nat
  book_id : Nat
  user_id : Nat
  checkout_date : Nat
  return_date : Option Nat
  due_date : Nat
  is_returned : Nat
deriving DecidableEq, Repr

/-- The whole SQLite store. -/
structure DB where
  users : List User
  books : List Book
  checkouts : List Checkout
deriving DecidableEq, Repr

/-- The fixed loan period: 7 days, in seconds. -/
def loanPeriod : Nat := 7 * 86400

/-- Largest checkout id currently present (0 for an empty ledger). -/
def maxCheckoutId (db : DB) : Nat :=
  db.checkouts.foldr (fun c m => max c.checkout_id m) 0

/-- AUTOINCREMENT id handed to the next inserted checkout row. -/
def nextCheckoutId (db : DB) : Nat := maxCheckoutId db + 1

/-- Rewrite of a book row performed by the checkout UPDATE:
`SET is_booked = 1, booked_by_user_id = ?, due_date = ?`. -/
def bookCheckedOut (b : Book) (uid due : Nat) : Book :=
  ⟨b.book_id, b.isbn, b.title, b.author, b.year_published, b.genre,
   b.image_url, 1, some uid, some due⟩

/-- Rewrite of a book row performed by the return UPDATE:
`SET is_booked = 0, booked_by_user_id = NULL, due_date = NULL`. -/
def bookCleared (b : Book) : Book :=
  ⟨b.book_id, b.isbn, b.title, b.author, b.year_published, b.genre,
   b.image_url, 0, none, none⟩

/-- Rewrite of a checkout row performed by the return UPDATE:
`SET is_returned = 1, return_date = ?`. -/
def checkoutClosed (c : Checkout) (rdate : Nat) : Checkout :=
  ⟨c.checkout_id, c.book_id, c.user_id, c.checkout_date, some rdate,
   c.due_date, 1⟩

/-- Response of `POST /api/checkouts` (`checkout_book`). -/
inductive CheckoutResponse where
  | userNotFound : CheckoutResponse
  | bookNotFound : CheckoutResponse
  | notAvailable : Option Nat → CheckoutResponse
  | created : Nat → Nat → Nat → Nat → CheckoutResponse
deriving DecidableEq, Repr

/-- HTTP status of each `checkout_book` outcome. -/
def checkoutStatus : CheckoutResponse → Nat
  | .userNotFound => 404
  | .bookNotFound => 404
  | .notAvailable _ => 409
  | .created _ _ _ _ => 201

/-- `checkout_book` (POST /api/checkouts): check the user exists, check the
book exists and is available, then set the book checked-out with due date
`now + loanPeriod` and append a new ledger row with the same due date. -/
def checkout_book (db : DB) (book_id user_id now : Nat) :
    CheckoutResponse × DB :=
  match db.users.find? (fun u => u.user_id == user_id) with
  | none => (.userNotFound, db)
  | some _ =>
    match db.books.find? (fun b => b.book_id == book_id) with
    | none => (.bookNotFound, db)
    | some book =>
      if book.is_booked == 1 then
        (.notAvailable book.due_date, db)
      else
        let due := now + loanPeriod
        let cid := nextCheckoutId db
        let row : Checkout := ⟨cid, book_id, user_id, now, none, due, 0⟩
        (.created cid book_id user_id due,
         ⟨db.users,
          db.books.map (fun b =>
            if b.book_id == book_id then bookCheckedOut b user_id due else b),
          db.checkouts ++ [row]⟩)

/-- Response of `DELETE /api/checkouts/<id>` (`return_book`). -/
inductive ReturnResponse where
  | notFound : ReturnResponse
  | alreadyReturned : ReturnResponse
  | returned : Nat → Nat → Nat → ReturnResponse
deriving DecidableEq, Repr

/-- HTTP status of each `return_book` outcome. -/
def returnStatus : ReturnResponse → Nat
  | .notFound => 404
  | .alreadyReturned => 400
  | .returned _ _ _ => 200

/-- `return_book` (DELETE /api/checkouts/<id>): look the ledger row up,
reject an already-returned one, otherwise mark it returned at `now` and
reset the referenced book to available. -/
def return_book (db : DB) (checkout_id now : Nat) : ReturnResponse × DB :=
  match db.checkouts.find? (fun c => c.checkout_id == checkout_id) with
  | none => (.notFound, db)
  | some co =>
    if co.is_returned == 1 then
      (.alreadyReturned, db)
    else
      (.returned checkout_id co.book_id now,
       ⟨db.users,
        db.books.map (fun b =>
          if b.book_id == co.book_id then bookCleared b else b),
        db.checkouts.map (fun c =>
          if c.checkout_id == checkout_id then checkoutClosed c now else c)⟩)

/-- Body of `PATCH /api/books/<id>`: each allowed field is independently
present or absent; a present nullable field may carry NULL. -/
structure BookPatch where
  is_booked : Option Nat
  booked_by_user_id : Option (Option Nat)
  due_date : Option (Option Nat)
deriving DecidableEq, Repr

/-- True when none of the three allowed fields is present in the body. -/
def patchEmpty (p : BookPatch) : Bool :=
  p.is_booked.isNone && p.booked_by_user_id.isNone && p.due_date.isNone

/-- Effect of the dynamically built `UPDATE books SET ...` on one row. -/
def applyPatch (p : BookPatch) (b : Book) : Book :=
  ⟨b.book_id, b.isbn, b.title, b.author, b.year_published, b.genre,
   b.image_url,
   p.is_booked.getD b.is_booked,
   p.booked_by_user_id.getD b.booked_by_user_id,
   p.due_date.getD b.due_date⟩

/-- Response of `PATCH /api/books/<id>` (`update_book`). -/
inductive UpdateResponse where
  | notFound : UpdateResponse
  | noFields : UpdateResponse
  | ok : UpdateResponse
deriving DecidableEq, Repr

/-- `update_book` (PATCH /api/books/<id>): 404 when the book is absent,
400 when no allowed field is present, otherwise rewrite the row with the
given fields. -/
def update_book (db : DB) (book_id : Nat) (p : BookPatch) :
    UpdateResponse × DB :=
  match db.books.find? (fun b => b.book_id == book_id) with
  | none => (.notFound, db)
  | some _ =>
    if patchEmpty p then (.noFields, db)
    else
      (.ok,
       ⟨db.users,
        db.books.map (fun b =>
          if b.book_id == book_id then applyPatch p b else b),
        db.checkouts⟩)

/-- Response of `DELETE /api/users/<id>` (`delete_user`). -/
inductive DeleteResponse where
  | notFound : DeleteResponse
  | deleted : DeleteResponse
deriving DecidableEq, Repr

/-- `delete_user` (DELETE /api/users/<id>): 404 when the user is absent,
otherwise `DELETE FROM users WHERE user_id = ?` — only the `users` table
is touched (the schema declares no ON DELETE action and the code never
enables SQLite foreign-key enforcement). -/
def delete_user (db : DB) (user_id : Nat) : DeleteResponse × DB :=
  match db.users.find? (fun u => u.user_id == user_id) with
  | none => (.notFound, db)
  | some _ =>
    (.deleted,
     ⟨db.users.filter (fun u => !(u.user_id == user_id)),
      db.books, db.checkouts⟩)

/-- Stable-enough descending insertion: place `x` before the first element
of strictly smaller rank. -/
def insertRanked {α : Type} (rank : α → Nat) (x : α) : List α → List α
  | [] => [x]
  | y :: ys =>
    if rank y < rank x then x :: y :: ys else y :: insertRanked rank x ys

/-- Deterministic descending sort by `rank`, modelling `ORDER BY ... DESC`
(the claims below depend only on membership, not on tie order). -/
def sortRankedDesc {α : Type} (rank : α → Nat) : List α → List α
  | [] => []
  | x :: xs => insertRanked rank x (sortRankedDesc rank xs)

/-- The trending window: 7 days, in seconds. -/
def trendingWindow : Nat := 7 * 86400

/-- `seven_days_ago` of the trending query. -/
def trendingCutoff (now : Nat) : Nat := now - trendingWindow

/-- The LEFT JOIN partners of book `b`: every ledger row referencing it. -/
def bookJoinRows (db : DB) (b : Book) : List Checkout :=
  db.checkouts.filter (fun c => c.book_id == b.book_id)

/-- The join partners of `b` whose checkout timestamp satisfies
`c.checkout_date >= seven_days_ago`. -/
def bookWindowRows (db : DB) (now : Nat) (b : Book) : List Checkout :=
  (bookJoinRows db b).filter (fun c => trendingCutoff now ≤ c.checkout_date)

/-- The group the trending query produces for book `b`, if any.  A book
with no ledger rows keeps its NULL-extended row (`c.checkout_date IS
NULL`) and counts 0; a book some of whose rows survive the window filter
counts those rows; a book all of whose rows fail the filter loses every
row — including the book itself — because `WHERE` runs after the LEFT
JOIN, so no group is formed for it. -/
def trendingEntry (db : DB) (now : Nat) (b : Book) : Option (Book × Nat) :=
  if bookJoinRows db b = [] then some (b, 0)
  else if bookWindowRows db now b = [] then none
  else some (b, (bookWindowRows db now b).length)

/-- The full ranking (`ORDER BY checkout_count DESC`), before `LIMIT 5`. -/
def trendingRanking (db : DB) (now : Nat) : List (Book × Nat) :=
  sortRankedDesc (fun p => p.2) (db.books.filterMap (trendingEntry db now))

/-- `get_trending_books`: the ranking truncated to the top 5. -/
def get_trending_books (db : DB) (now : Nat) : List (Book × Nat) :=
  (trendingRanking db now).take 5

/-- `checkouts c JOIN books b ON c.book_id = b.book_id WHERE c.user_id = ?`. -/
def userSeedJoin (db : DB) (uid : Nat) : List (Checkout × Book) :=
  db.checkouts.flatMap (fun c =>
    if c.user_id == uid then
      (db.books.filter (fun b => b.book_id == c.book_id)).map (fun b => (c, b))
    else [])

/-- The user's `recent_checkouts`: the join ordered by checkout timestamp
descending, limited to 3. -/
def seedRows (db : DB) (uid : Nat) : List (Checkout × Book) :=
  (sortRankedDesc (fun p => p.1.checkout_date) (userSeedJoin db uid)).take 3

/-- `recent_book_ids`. -/
def seedBookIds (db : DB) (uid : Nat) : List Nat :=
  (seedRows db uid).map (fun p => p.1.book_id)

/-- First-seen-order de-duplication by a key, with an accumulator of keys
already seen; models both the Python `seen_ids` loops and SQL DISTINCT. -/
def dedupByKey {α β : Type} [BEq β] (key : α → β) :
    List α → List β → List α
  | [], _ => []
  | x :: xs, seen =>
    if seen.contains (key x) then dedupByKey key xs seen
    else x :: dedupByKey key xs (key x :: seen)

/-- `recent_authors = list(set(...))`: the distinct non-empty authors of
the seed books (the Python truthiness test drops the empty string; the
set's iteration order is arbitrary, modelled here as first-seen order). -/
def seedAuthors (db : DB) (uid : Nat) : List String :=
  dedupByKey (fun a => a)
    ((seedRows db uid).filterMap
      (fun p => if p.2.author == "" then none else some p.2.author)) []

/-- `recent_years`: the distinct non-NULL, non-zero publication years of
the seed books (Python truthiness drops both `None` and `0`). -/
def seedYears (db : DB) (uid : Nat) : List Nat :=
  dedupByKey (fun y => y)
    ((seedRows db uid).filterMap
      (fun p => match p.2.year_published with
        | none => none
        | some y => if y == 0 then none else some y)) []

/-- Per-author query: `SELECT * FROM books WHERE author = ? AND book_id
NOT IN (seeds) LIMIT 5`. -/
def perAuthorBooks (db : DB) (uid : Nat) (a : String) : List Book :=
  (db.books.filter (fun b =>
    b.author == a && !((seedBookIds db uid).contains b.book_id))).take 5

/-- Per-year query: `SELECT * FROM books WHERE year_published = ? AND
book_id NOT IN (seeds) LIMIT 5`. -/
def perYearBooks (db : DB) (uid : Nat) (y : Nat) : List Book :=
  (db.books.filter (fun b =>
    b.year_published == some y
      && !((seedBookIds db uid).contains b.book_id))).take 5

/-- `SELECT DISTINCT user_id FROM checkouts WHERE book_id IN (seeds) AND
user_id != ?`. -/
def similarUserIds (db : DB) (uid : Nat) : List Nat :=
  dedupByKey (fun u => u)
    (db.checkouts.filterMap (fun c =>
      if (seedBookIds db uid).contains c.book_id && !(c.user_id == uid)
      then some c.user_id else none)) []

/-- Per similar user: `SELECT DISTINCT b.* FROM checkouts c JOIN books b
ON c.book_id = b.book_id WHERE c.user_id = ? AND c.book_id NOT IN (seeds)
LIMIT 3`. -/
def perSimilarUserBooks (db : DB) (uid su : Nat) : List Book :=
  (dedupByKey (fun b => b)
    (db.checkouts.flatMap (fun c =>
      if c.user_id == su && !((seedBookIds db uid).contains c.book_id)
      then db.books.filter (fun b => b.book_id == c.book_id)
      else [])) []).take 3

/-- `by_author` before de-duplication: concatenation of the per-author
picks, in author order. -/
def rawByAuthor (db : DB) (uid : Nat) : List Book :=
  (seedAuthors db uid).flatMap (perAuthorBooks db uid)

/-- `by_year` before de-duplication. -/
def rawByYear (db : DB) (uid : Nat) : List Book :=
  (seedYears db uid).flatMap (perYearBooks db uid)

/-- `similar_users_books` before de-duplication: the first 5 similar users
contribute up to 3 books each. -/
def rawSimilar (db : DB) (uid : Nat) : List Book :=
  ((similarUserIds db uid).take 5).flatMap (perSimilarUserBooks db uid)

/-- First-seen de-duplication of a book list by `book_id` (the Python
`seen_ids` loops). -/
def dedupBooks (l : List Book) : List Book :=
  dedupByKey (fun b => b.book_id) l []

/-- Result shape of `get_user_recommendations`.  The no-history response
carries no `based_on_books` key, modelled as the empty list, and is the
only response with a `message`. -/
structure Recommendations where
  by_author : List Book
  by_year : List Book
  similar_users : List Book
  based_on_books : List Nat
  message : Option String
deriving DecidableEq, Repr

/-- The explanatory status of the no-history response. -/
def noHistoryMessage : String :=
  "No checkout history found. Check out some books to get recommendations!"

/-- `get_user_recommendations`: seed on the user's 3 most recent
checkouts; with no history, return the explanatory empty result;
otherwise de-duplicate each raw list first-seen and cap it at 10. -/
def get_user_recommendations (db : DB) (uid : Nat) : Recommendations :=
  if seedRows db uid = [] then
    ⟨[], [], [], [], some noHistoryMessage⟩
  else
    ⟨(dedupBooks (rawByAuthor db uid)).take 10,
     (dedupBooks (rawByYear db uid)).take 10,
     (dedupBooks (rawSimilar db uid)).take 10,
     seedBookIds db uid,
     none⟩

/-- The availability-field invariant of §8: a book is flagged booked
exactly when holder and due date are both present. -/
def booksInvariant (db : DB) : Prop :=
  ∀ b ∈ db.books,
    b.is_booked = 1 ↔ (b.booked_by_user_id ≠ none ∧ b.due_date ≠ none)

/-- The ledger rows still out (`is_returned = 0`). -/
def openCheckouts (db : DB) : List Checkout :=
  db.checkouts.filter (fun c => c.is_returned == 0)

/-- The consistency of a store state maintained by the checkout engine:
open ledger rows reference pairwise distinct books, every open row's book
is flagged booked, and the returned flag is boolean. -/
def Consistent (db : DB) : Prop :=
  ((openCheckouts db).map (fun c => c.book_id)).Nodup ∧
  (∀ c ∈ db.checkouts, c.is_returned = 0 →
     ∀ b ∈ db.books, b.book_id = c.book_id → b.is_booked = 1) ∧
  (∀ c ∈ db.checkouts, c.is_returned ≤ 1)

/-! ### Helper lemmas -/

theorem mem_insertRanked {α : Type} (rank : α → Nat) (a x : α)
    (l : List α) : x ∈ insertRanked rank a l ↔ x = a ∨ x ∈ l := by
  induction l with
  | nil => simp [insertRanked]
  | cons y ys ih =>
    unfold insertRanked
    split
    · simp
    · simp only [List.mem_cons, ih]
      tauto

theorem mem_sortRankedDesc {α : Type} (rank : α → Nat) (x : α)
    (l : List α) : x ∈ sortRankedDesc rank l ↔ x ∈ l := by
  induction l with
  | nil => simp [sortRankedDesc]
  | cons y ys ih =>
    unfold sortRankedDesc
    rw [mem_insertRanked, ih]
    simp

theorem checkout_id_le_max (db : DB) :
    ∀ c ∈ db.checkouts, c.checkout_id ≤ maxCheckoutId db := by
  unfold maxCheckoutId
  induction db.checkouts with
  | nil => simp
  | cons x xs ih =>
    intro c hc
    rcases List.mem_cons.mp hc with h | h
    · subst h
      exact Nat.le_max_left _ _
    · exact le_trans (ih c h) (Nat.le_max_right _ _)

theorem find?_append_of_none {α : Type} {p : α → Bool} {l₁ l₂ : List α}
    (h : ∀ x ∈ l₁, ¬p x = true) :
    (l₁ ++ l₂).find? p = l₂.find? p := by
  rw [List.find?_append, List.find?_eq_none.mpr h, Option.none_or]

theorem nodup_map_ne {α β : Type} {f : α → β} {l : List α}
    (h : (l.map f).Nodup) {a b : α} (ha : a ∈ l) (hb : b ∈ l)
    (hne : a ≠ b) : f a ≠ f b := by
  induction l with
  | nil => cases ha
  | cons x xs ih =>
    rw [List.map_cons, List.nodup_cons] at h
    rcases List.mem_cons.mp ha with rfl | ha' <;>
      rcases List.mem_cons.mp hb with rfl | hb'
    · exact absurd rfl hne
    · intro he
      exact h.1 (he ▸ List.mem_map_of_mem f hb')
    · intro he
      exact h.1 (he ▸ List.mem_map_of_mem f ha')
    · exact ih h.2 ha' hb'

theorem count_le_one_of_nodup_map {α β : Type} [BEq β] [LawfulBEq β]
    (f : α → β) (l : List α) (h : (l.map f).Nodup) (k : β) :
    (l.filter (fun x => f x == k)).length ≤ 1 := by
  induction l with
  | nil => simp
  | cons x xs ih =>
    rw [List.map_cons, List.nodup_cons] at h
    rw [List.filter_cons]
    by_cases hx : (f x == k) = true
    · rw [if_pos hx]
      have hnil : xs.filter (fun y => f y == k) = [] := by
        rw [List.filter_eq_nil_iff]
        intro y hy hyk
        apply h.1
        have : f y = k := beq_iff_eq.mp hyk
        have hxk : f x = k := beq_iff_eq.mp hx
        rw [hxk, ← this]
        exact List.mem_map_of_mem f hy
      simp [hnil]
    · rw [if_neg hx]
      exact ih h.2

theorem dedupByKey_sublist {α β : Type} [BEq β] (key : α → β)
    (l : List α) : ∀ seen, (dedupByKey key l seen).Sublist l := by
  induction l with
  | nil => intro seen; simp [dedupByKey]
  | cons x xs ih =>
    intro seen
    unfold dedupByKey
    split
    · exact (ih seen).cons x
    · exact (ih _).cons₂ x

theorem dedupByKey_keys_nodup {α β : Type} [BEq β] [LawfulBEq β]
    (key : α → β) (l : List α) :
    ∀ seen, ((dedupByKey key l seen).map key).Nodup ∧
      ∀ y ∈ (dedupByKey key l seen).map key, y ∉ seen := by
  induction l with
  | nil => intro seen; simp [dedupByKey]
  | cons x xs ih =>
    intro seen
    unfold dedupByKey
    split
    · exact ih seen
    · rename_i hc
      have hseen : key x ∉ seen := by
        intro hmem
        have hc2 : seen.contains (key x) = true := List.elem_iff.mpr hmem
        rw [hc2] at hc
        exact hc rfl
      constructor
      · rw [List.map_cons, List.nodup_cons]
        refine ⟨fun hmem => ?_, (ih (key x :: seen)).1⟩
        have := (ih (key x :: seen)).2 (key x) hmem
        exact this (List.mem_cons_self _ _)
      · intro y hy
        rw [List.map_cons] at hy
        rcases List.mem_cons.mp hy with rfl | hy'
        · exact hseen
        · have := (ih (key x :: seen)).2 y hy'
          intro hmem
          exact this (List.mem_cons_of_mem _ hmem)

/-! ### Concrete fixtures used by witnesses and counterexamples -/

def exUserA : User := ⟨1, "alice", "pw1", 0⟩

def exUserB : User := ⟨2, "bob", "pw2", 0⟩

def exBookAvail : Book :=
  ⟨1, none, "Nineteen Eighty-Four", "Orwell", some 1949, none, none, 0, none, none⟩

def exBookBooked : Book :=
  ⟨2, none, "Animal Farm", "Orwell", some 1945, none, none, 1, some 2, some 1000⟩

def exCheckoutOpen : Checkout := ⟨1, 2, 2, 100, none, 1000, 0⟩

def exCheckoutDone : Checkout := ⟨2, 1, 1, 10, some 20, 30, 1⟩

def exDB : DB :=
  ⟨[exUserA, exUserB], [exBookAvail, exBookBooked],
   [exCheckoutOpen, exCheckoutDone]⟩

/-! ### Claim theorems -/

/-- Claim C10: deleting an existing user removes only that user's row;
the `books` and `checkouts` tables are untouched, so a book the deleted
user still holds stays checked out in their name and their ledger rows
persist. -/
theorem C10_delete_user_frame (db : DB) (uid : Nat)
    (h : ∃ u ∈ db.users, u.user_id = uid) :
    (delete_user db uid).1 = .deleted ∧
    (delete_user db uid).2.books = db.books ∧
    (delete_user db uid).2.checkouts = db.checkouts ∧
    (delete_user db uid).2.users
      = db.users.filter (fun u => !(u.user_id == uid)) := by
  obtain ⟨u, hu, huid⟩ := h
  have hf : db.users.find? (fun v => v.user_id == uid) ≠ none := by
    rw [Ne, List.find?_eq_none]
    push_neg
    exact ⟨u, hu, by simp [huid]⟩
  obtain ⟨v, hv⟩ := Option.ne_none_iff_exists'.mp hf
  simp [delete_user, hv]

/-- Witness for C10: deleting user 2, who currently holds book 2, leaves
the book row (still booked by 2) and both ledger rows in place. -/
theorem C10_delete_user_frame_witness :
    (delete_user exDB 2).1 = .deleted ∧
    (delete_user exDB 2).2.books = exDB.books ∧
    (delete_user exDB 2).2.checkouts = exDB.checkouts ∧
    (delete_user exDB 2).2.users
      = exDB.users.filter (fun u => !(u.user_id == 2)) :=
  C10_delete_user_frame exDB 2 ⟨exUserB, by decide, by decide⟩

/-- Claim C6: returning an already-returned checkout id fails with
AlreadyReturned (HTTP 400) and leaves every book row and every ledger row
exactly as it was. -/
theorem C6_return_already_returned (db : DB) (cid now : Nat) (c : Checkout)
    (hf : db.checkouts.find? (fun x => x.checkout_id == cid) = some c)
    (hr : c.is_returned = 1) :
    return_book db cid now = (.alreadyReturned, db) ∧
    returnStatus (return_book db cid now).1 = 400 ∧
    (return_book db cid now).2.books = db.books ∧
    (return_book db cid now).2.checkouts = db.checkouts := by
  have : return_book db cid now = (.alreadyReturned, db) := by
    simp [return_book, hf, hr]
  simp [this, returnStatus]

/-- Witness for C6: checkout id 2 of the fixture store is already
returned; a second return changes nothing. -/
theorem C6_return_already_returned_witness :
    return_book exDB 2 5000 = (.alreadyReturned, exDB) ∧
    returnStatus (return_book exDB 2 5000).1 = 400 ∧
    (return_book exDB 2 5000).2.books = exDB.books ∧
    (return_book exDB 2 5000).2.checkouts = exDB.checkouts :=
  C6_return_already_returned exDB 2 5000 exCheckoutDone (by decide) (by decide)

/-- Claim C9: a successful checkout computes one due date, `now` plus the
fixed 7-day loan period, and writes that same value both into the book
row and into the appended ledger row. -/
theorem C9_due_date (db : DB) (bid uid now : Nat) (b : Book)
    (hu : db.users.find? (fun u => u.user_id == uid) ≠ none)
    (hb : db.books.find? (fun x => x.book_id == bid) = some b)
    (hav : b.is_booked ≠ 1) :
    (checkout_book db bid uid now).1
      = .created (nextCheckoutId db) bid uid (now + loanPeriod) ∧
    (∀ b' ∈ (checkout_book db bid uid now).2.books,
        b'.book_id = bid → b'.due_date = some (now + loanPeriod)) ∧
    (checkout_book db bid uid now).2.checkouts
      = db.checkouts
          ++ [⟨nextCheckoutId db, bid, uid, now, none, now + loanPeriod, 0⟩] := by
  obtain ⟨u, hu'⟩ := Option.ne_none_iff_exists'.mp hu
  have hbool : (b.is_booked == 1) = false := beq_eq_false_iff_ne.mpr hav
  have hck : checkout_book db bid uid now
      = (.created (nextCheckoutId db) bid uid (now + loanPeriod),
         ⟨db.users,
          db.books.map (fun x =>
            if x.book_id == bid then bookCheckedOut x uid (now + loanPeriod)
            else x),
          db.checkouts
            ++ [⟨nextCheckoutId db, bid, uid, now, none, now + loanPeriod, 0⟩]⟩) := by
    simp [checkout_book, hu', hb, hbool]
  refine ⟨by rw [hck], ?_, by rw [hck]⟩
  rw [hck]
  intro b' hb' hid
  obtain ⟨b0, hb0, rfl⟩ := List.mem_map.mp hb'
  by_cases h0 : (b0.book_id == bid) = true
  · simp only [h0, if_pos]
    rfl
  · rw [if_neg h0] at hid ⊢
    exact absurd (beq_iff_eq.mpr hid) h0

/-- Witness for C9: checking book 1 out for user 1 at time 1000 stamps
due date 1000 + 604800 on the book row and on ledger row 3. -/
theorem C9_due_date_witness :
    (checkout_book exDB 1 1 1000).1
      = .created (nextCheckoutId exDB) 1 1 (1000 + loanPeriod) ∧
    (∀ b' ∈ (checkout_book exDB 1 1 1000).2.books,
        b'.book_id = 1 → b'.due_date = some (1000 + loanPeriod)) ∧
    (checkout_book exDB 1 1 1000).2.checkouts
      = exDB.checkouts
          ++ [⟨nextCheckoutId exDB, 1, 1, 1000, none, 1000 + loanPeriod, 0⟩] :=
  C9_due_date exDB 1 1 1000 exBookAvail (by decide) (by decide) (by decide)

/-- Claim C3: `checkout_book` fails 404 when the user is absent, 404 when
the user exists but the book is absent, and 409 when both exist and the
book is already checked out — the 409 body carrying the existing due
date.  The handler checks in that order, so a missing user masks the
later conditions. -/
theorem C3_checkout_error_cases :
    (∀ db bid uid now,
        db.users.find? (fun u => u.user_id == uid) = none →
        checkout_book db bid uid now = (.userNotFound, db) ∧
        checkoutStatus (checkout_book db bid uid now).1 = 404) ∧
    (∀ db bid uid now,
        db.users.find? (fun u => u.user_id == uid) ≠ none →
        db.books.find? (fun x => x.book_id == bid) = none →
        checkout_book db bid uid now = (.bookNotFound, db) ∧
        checkoutStatus (checkout_book db bid uid now).1 = 404) ∧
    (∀ db bid uid now b,
        db.users.find? (fun u => u.user_id == uid) ≠ none →
        db.books.find? (fun x => x.book_id == bid) = some b →
        b.is_booked = 1 →
        checkout_book db bid uid now = (.notAvailable b.due_date, db) ∧
        checkoutStatus (checkout_book db bid uid now).1 = 409) := by
  refine ⟨?_, ?_, ?_⟩
  · intro db bid uid now h
    have : checkout_book db bid uid now = (.userNotFound, db) := by
      simp [checkout_book, h]
    simp [this, checkoutStatus]
  · intro db bid uid now hu hb
    obtain ⟨u, hu'⟩ := Option.ne_none_iff_exists'.mp hu
    have : checkout_book db bid uid now = (.bookNotFound, db) := by
      simp [checkout_book, hu', hb]
    simp [this, checkoutStatus]
  · intro db bid uid now b hu hb hbk
    obtain ⟨u, hu'⟩ := Option.ne_none_iff_exists'.mp hu
    have : checkout_book db bid uid now = (.notAvailable b.due_date, db) := by
      simp [checkout_book, hu', hb, hbk]
    simp [this, checkoutStatus]

/-- Witness for C3: against the fixture store, user 9 is unknown (404),
book 9 is unknown (404), and book 2 is already out with due date 1000
(409 carrying that date). -/
theorem C3_checkout_error_cases_witness :
    (checkout_book exDB 1 9 0 = (.userNotFound, exDB) ∧
      checkoutStatus (checkout_book exDB 1 9 0).1 = 404) ∧
    (checkout_book exDB 9 1 0 = (.bookNotFound, exDB) ∧
      checkoutStatus (checkout_book exDB 9 1 0).1 = 404) ∧
    (checkout_book exDB 2 1 0 = (.notAvailable exBookBooked.due_date, exDB) ∧
      checkoutStatus (checkout_book exDB 2 1 0).1 = 409) :=
  ⟨C3_checkout_error_cases.1 exDB 1 9 0 (by decide),
   C3_checkout_error_cases.2.1 exDB 9 1 0 (by decide) (by decide),
   C3_checkout_error_cases.2.2 exDB 2 1 0 exBookBooked (by decide)
     (by decide) (by decide)⟩

/-- Claim C7: a user with no ledger rows gets the non-error empty
recommendation result — all book lists and the seed-id list empty — plus
the explanatory message (the response leaves the seed-id key out
entirely, modelled as the empty list). -/
theorem C7_recommend_empty (db : DB) (uid : Nat)
    (h : ∀ c ∈ db.checkouts, c.user_id ≠ uid) :
    get_user_recommendations db uid
      = ⟨[], [], [], [], some noHistoryMessage⟩ := by
  have hj : userSeedJoin db uid = [] := by
    unfold userSeedJoin
    rw [List.flatMap_eq_nil_iff]
    intro c hc
    have : (c.user_id == uid) = false := beq_eq_false_iff_ne.mpr (h c hc)
    simp [this]
  have hs : seedRows db uid = [] := by
    unfold seedRows
    rw [hj]
    rfl
  simp [get_user_recommendations, hs]

/-- Witness for C7: user 7 has no checkout history in the fixture store
and receives the empty result with the explanatory message. -/
theorem C7_recommend_empty_witness :
    get_user_recommendations exDB 7
      = ⟨[], [], [], [], some noHistoryMessage⟩ :=
  C7_recommend_empty exDB 7 (by decide)

def exBookOld : Book :=
  ⟨3, none, "Old Classic", "Forgotten", none, none, none, 0, none, none⟩

def exCheckoutOld : Checkout := ⟨1, 3, 1, 0, some 5, 100, 1⟩

/-- A store whose only book was last checked out at time 0, far outside
the trailing window at time `exNowT`. -/
def exDBtrend : DB := ⟨[exUserA], [exBookOld], [exCheckoutOld]⟩

def exNowT : Nat := 20 * 86400

/-- Counterexample to claim C1: book 3 has checkout history, but none of
it inside the trailing 7-day window, so the `WHERE c.checkout_date >= ?
OR c.checkout_date IS NULL` clause discards every one of its joined rows
and the book vanishes from the ranking instead of appearing with count
0 — the ranking is empty although the catalog is not. -/
theorem C1_trending_counterexample :
    exBookOld ∈ exDBtrend.books ∧
    (∀ n, (exBookOld, n) ∉ trendingRanking exDBtrend exNowT) ∧
    get_trending_books exDBtrend exNowT = [] := by
  refine ⟨by decide, fun n hmem => ?_, by decide⟩
  have h : trendingRanking exDBtrend exNowT = [] := by decide
  rw [h] at hmem
  exact List.not_mem_nil _ hmem

/-- Claim C1 as amended: a book with no ledger rows at all appears with
count 0 (its NULL-extended join row passes the IS NULL test), and a book
with at least one in-window row appears with the count of those rows; but
a book whose ledger rows all predate the window is omitted from the
ranking entirely, because the window filter runs after the LEFT JOIN. -/
theorem C1_trending_ranking_amended (db : DB) (now : Nat) (b : Book)
    (hmem : b ∈ db.books) :
    (bookJoinRows db b = [] → (b, 0) ∈ trendingRanking db now) ∧
    (bookWindowRows db now b ≠ [] →
        (b, (bookWindowRows db now b).length) ∈ trendingRanking db now) ∧
    (bookJoinRows db b ≠ [] → bookWindowRows db now b = [] →
        ∀ n, (b, n) ∉ trendingRanking db now) := by
  refine ⟨?_, ?_, ?_⟩
  · intro hj
    unfold trendingRanking
    rw [mem_sortRankedDesc]
    exact List.mem_filterMap.mpr ⟨b, hmem, by simp [trendingEntry, hj]⟩
  · intro hw
    have hj : bookJoinRows db b ≠ [] := by
      intro h0
      apply hw
      unfold bookWindowRows
      rw [h0]
      rfl
    unfold trendingRanking
    rw [mem_sortRankedDesc]
    exact List.mem_filterMap.mpr ⟨b, hmem, by simp [trendingEntry, hj, hw]⟩
  · intro hj hw n hmem'
    unfold trendingRanking at hmem'
    rw [mem_sortRankedDesc] at hmem'
    obtain ⟨a, _, hent⟩ := List.mem_filterMap.mp hmem'
    unfold trendingEntry at hent
    split at hent
    · rename_i h1
      rw [Option.some_inj, Prod.mk.injEq] at hent
      exact hj (hent.1 ▸ h1)
    · split at hent
      · exact Option.noConfusion hent
      · rename_i h1 h2
        rw [Option.some_inj, Prod.mk.injEq] at hent
        exact h2 (hent.1 ▸ hw)

/-- Witness for the amended C1 at the fixture store: book 3 is in the
catalog, has join rows, has no in-window rows, and is indeed omitted. -/
theorem C1_trending_ranking_amended_witness :
    (bookJoinRows exDBtrend exBookOld = [] →
        (exBookOld, 0) ∈ trendingRanking exDBtrend exNowT) ∧
    (bookWindowRows exDBtrend exNowT exBookOld ≠ [] →
        (exBookOld, (bookWindowRows exDBtrend exNowT exBookOld).length)
          ∈ trendingRanking exDBtrend exNowT) ∧
    (bookJoinRows exDBtrend exBookOld ≠ [] →
        bookWindowRows exDBtrend exNowT exBookOld = [] →
        ∀ n, (exBookOld, n) ∉ trendingRanking exDBtrend exNowT) :=
  C1_trending_ranking_amended exDBtrend exNowT exBookOld (by decide)

instance instDecBooksInvariant (db : DB) : Decidable (booksInvariant db) :=
  inferInstanceAs (Decidable (∀ b ∈ db.books,
    b.is_booked = 1 ↔ (b.booked_by_user_id ≠ none ∧ b.due_date ≠ none)))

instance instDecConsistent (db : DB) : Decidable (Consistent db) :=
  inferInstanceAs (Decidable
    (((openCheckouts db).map (fun c : Checkout => c.book_id)).Nodup ∧
     (∀ c ∈ db.checkouts, c.is_returned = 0 →
        ∀ b ∈ db.books, b.book_id = c.book_id → b.is_booked = 1) ∧
     (∀ c ∈ db.checkouts, c.is_returned ≤ 1)))

/-- A PATCH body that sets `is_booked` and nothing else. -/
def exPatchBookedOnly : BookPatch := ⟨some 1, none, none⟩

/-- Counterexample to claim C4: the fixture store satisfies the
availability-field invariant, yet `update_book` — an operation that
writes book availability — accepts `{"is_booked": 1}` alone and leaves
book 1 flagged booked with `booked_by_user_id` and `due_date` still
NULL, breaking the claimed iff. -/
theorem C4_availability_counterexample :
    booksInvariant exDB ∧
    (update_book exDB 1 exPatchBookedOnly).1 = .ok ∧
    ¬ booksInvariant (update_book exDB 1 exPatchBookedOnly).2 := by
  decide

/-- Claim C4 as amended: the checkout engine's own writers — checkout and
return — do preserve the availability-field invariant; the generic book
PATCH endpoint does not, since it can set any subset of the three
fields. -/
theorem C4_availability_invariant_amended (db : DB) (bid uid cid now : Nat)
    (h : booksInvariant db) :
    booksInvariant (checkout_book db bid uid now).2 ∧
    booksInvariant (return_book db cid now).2 := by
  constructor
  · cases hu : db.users.find? (fun u => u.user_id == uid) with
    | none =>
      have he : (checkout_book db bid uid now).2 = db := by
        simp [checkout_book, hu]
      rw [he]
      exact h
    | some u =>
      cases hb : db.books.find? (fun x => x.book_id == bid) with
      | none =>
        have he : (checkout_book db bid uid now).2 = db := by
          simp [checkout_book, hu, hb]
        rw [he]
        exact h
      | some b =>
        by_cases hbk : (b.is_booked == 1) = true
        · have he : (checkout_book db bid uid now).2 = db := by
            simp [checkout_book, hu, hb, hbk]
          rw [he]
          exact h
        · have hck : (checkout_book db bid uid now).2
              = ⟨db.users,
                 db.books.map (fun x =>
                   if x.book_id == bid then
                     bookCheckedOut x uid (now + loanPeriod)
                   else x),
                 db.checkouts
                   ++ [⟨nextCheckoutId db, bid, uid, now, none,
                        now + loanPeriod, 0⟩]⟩ := by
            simp [checkout_book, hu, hb, hbk]
          rw [hck]
          unfold booksInvariant
          intro b' hb'
          obtain ⟨b0, hb0, rfl⟩ := List.mem_map.mp hb'
          by_cases h0 : (b0.book_id == bid) = true
          · simp [h0, bookCheckedOut]
          · rw [if_neg h0]
            exact h b0 hb0
  · cases hc : db.checkouts.find? (fun c => c.checkout_id == cid) with
    | none =>
      have he : (return_book db cid now).2 = db := by
        simp [return_book, hc]
      rw [he]
      exact h
    | some co =>
      by_cases hr : (co.is_returned == 1) = true
      · have he : (return_book db cid now).2 = db := by
          simp [return_book, hc, hr]
        rw [he]
        exact h
      · have hrt : (return_book db cid now).2
            = ⟨db.users,
               db.books.map (fun x =>
                 if x.book_id == co.book_id then bookCleared x else x),
               db.checkouts.map (fun c =>
                 if c.checkout_id == cid then checkoutClosed c now else c)⟩ := by
          simp [return_book, hc, hr]
        rw [hrt]
        unfold booksInvariant
        intro b' hb'
        obtain ⟨b0, hb0, rfl⟩ := List.mem_map.mp hb'
        by_cases h0 : (b0.book_id == co.book_id) = true
        · simp [h0, bookCleared]
        · rw [if_neg h0]
          exact h b0 hb0

/-- Witness for the amended C4: the fixture store satisfies the
invariant, and a concrete checkout (book 1, user 1) and return (ledger
row 1) both keep it. -/
theorem C4_availability_invariant_amended_witness :
    booksInvariant (checkout_book exDB 1 1 500).2 ∧
    booksInvariant (return_book exDB 1 500).2 :=
  C4_availability_invariant_amended exDB 1 1 1 500 (by decide)

/-- Claim C8: for a user with checkout history, `by_author` is the
per-distinct-seed-author picks (up to 5 books per author, seed books
excluded), concatenated, de-duplicated by book id keeping first-seen
order, and capped at 10 — hence it never contains a seed book nor a
duplicated book id and never exceeds 10 entries. -/
theorem C8_by_author (db : DB) (uid : Nat) (h : seedRows db uid ≠ []) :
    (get_user_recommendations db uid).by_author
        = (dedupBooks (rawByAuthor db uid)).take 10 ∧
    (∀ b ∈ (get_user_recommendations db uid).by_author,
        b.book_id ∉ seedBookIds db uid) ∧
    ((get_user_recommendations db uid).by_author.map
        (fun b : Book => b.book_id)).Nodup ∧
    (get_user_recommendations db uid).by_author.length ≤ 10 := by
  have heq : (get_user_recommendations db uid).by_author
      = (dedupBooks (rawByAuthor db uid)).take 10 := by
    unfold get_user_recommendations
    rw [if_neg h]
  refine ⟨heq, ?_, ?_, ?_⟩
  · intro b hb
    rw [heq] at hb
    have hb1 : b ∈ dedupBooks (rawByAuthor db uid) :=
      List.Sublist.mem hb (List.take_sublist 10 _)
    have hb2 : b ∈ rawByAuthor db uid :=
      List.Sublist.mem hb1 (dedupByKey_sublist _ _ [])
    obtain ⟨a, _, hba⟩ := List.mem_flatMap.mp hb2
    unfold perAuthorBooks at hba
    have hb4 := List.Sublist.mem hba (List.take_sublist 5 _)
    rw [List.mem_filter] at hb4
    have hp := hb4.2
    simp only [Bool.and_eq_true, Bool.not_eq_true'] at hp
    have hcon := hp.2
    intro hmem
    have hc2 : (seedBookIds db uid).contains b.book_id = true :=
      List.elem_iff.mpr hmem
    rw [hcon] at hc2
    exact Bool.false_ne_true hc2
  · rw [heq]
    unfold dedupBooks
    rw [List.map_take]
    exact List.Nodup.sublist (List.take_sublist 10 _)
      ((dedupByKey_keys_nodup (fun b : Book => b.book_id)
        (rawByAuthor db uid) []).1)
  · rw [heq, List.length_take]
    exact inf_le_left

/-- Witness for C8: user 2's seed is book 2 ("Animal Farm", Orwell), so
`by_author` picks the other Orwell book, excluding the seed, without
duplicates, within the cap. -/
theorem C8_by_author_witness :
    (get_user_recommendations exDB 2).by_author
        = (dedupBooks (rawByAuthor exDB 2)).take 10 ∧
    (∀ b ∈ (get_user_recommendations exDB 2).by_author,
        b.book_id ∉ seedBookIds exDB 2) ∧
    ((get_user_recommendations exDB 2).by_author.map
        (fun b : Book => b.book_id)).Nodup ∧
    (get_user_recommendations exDB 2).by_author.length ≤ 10 :=
  C8_by_author exDB 2 (by decide)

/-- The ledger row appended by a successful checkout. -/
def newCheckoutRow (db : DB) (bid uid now : Nat) : Checkout :=
  ⟨nextCheckoutId db, bid, uid, now, none, now + loanPeriod, 0⟩

/-- Claim C2: checking an available book out for an existing user and
then returning the produced checkout id leaves the book available with
holder and due date cleared, and leaves the ledger row returned with a
return timestamp no earlier than its checkout timestamp. -/
theorem C2_checkout_return_round_trip (db : DB) (bid uid now1 now2 : Nat)
    (b : Book)
    (hu : db.users.find? (fun u => u.user_id == uid) ≠ none)
    (hb : db.books.find? (fun x => x.book_id == bid) = some b)
    (hav : b.is_booked ≠ 1)
    (ht : now1 ≤ now2) :
    (checkout_book db bid uid now1).1
      = .created (nextCheckoutId db) bid uid (now1 + loanPeriod) ∧
    (return_book (checkout_book db bid uid now1).2
        (nextCheckoutId db) now2).1
      = .returned (nextCheckoutId db) bid now2 ∧
    (∀ b' ∈ (return_book (checkout_book db bid uid now1).2
                (nextCheckoutId db) now2).2.books,
        b'.book_id = bid →
        b'.is_booked = 0 ∧ b'.booked_by_user_id = none ∧
          b'.due_date = none) ∧
    ((return_book (checkout_book db bid uid now1).2
        (nextCheckoutId db) now2).2.checkouts.find?
          (fun c => c.checkout_id == nextCheckoutId db)
      = some (⟨nextCheckoutId db, bid, uid, now1, some now2,
               now1 + loanPeriod, 1⟩ : Checkout)) ∧
    now1 ≤ now2 := by
  obtain ⟨u, hu'⟩ := Option.ne_none_iff_exists'.mp hu
  have hbool : (b.is_booked == 1) = false := beq_eq_false_iff_ne.mpr hav
  have hck : checkout_book db bid uid now1
      = (.created (nextCheckoutId db) bid uid (now1 + loanPeriod),
         ⟨db.users,
          db.books.map (fun x =>
            if x.book_id == bid then
              bookCheckedOut x uid (now1 + loanPeriod)
            else x),
          db.checkouts ++ [newCheckoutRow db bid uid now1]⟩) := by
    simp [checkout_book, hu', hb, hbool, newCheckoutRow]
  have hfresh : ∀ c ∈ db.checkouts,
      ¬((c.checkout_id == nextCheckoutId db) = true) := by
    intro c hc hbeq
    have hle := checkout_id_le_max db c hc
    rw [beq_iff_eq.mp hbeq] at hle
    unfold nextCheckoutId at hle
    omega
  have hfnone : db.checkouts.find?
      (fun c => c.checkout_id == nextCheckoutId db) = none :=
    List.find?_eq_none.mpr hfresh
  have hrb : return_book (checkout_book db bid uid now1).2
        (nextCheckoutId db) now2
      = (.returned (nextCheckoutId db) bid now2,
         ⟨db.users,
          (db.books.map (fun x =>
            if x.book_id == bid then
              bookCheckedOut x uid (now1 + loanPeriod)
            else x)).map (fun x =>
              if x.book_id == bid then bookCleared x else x),
          (db.checkouts ++ [newCheckoutRow db bid uid now1]).map (fun c =>
              if c.checkout_id == nextCheckoutId db then
                checkoutClosed c now2
              else c)⟩) := by
    rw [hck]
    simp [return_book, hfnone, newCheckoutRow]
  refine ⟨by rw [hck], by rw [hrb], ?_, ?_, ht⟩
  · rw [hrb]
    intro b' hb' hid
    obtain ⟨b1, hb1, rfl⟩ := List.mem_map.mp hb'
    by_cases h1 : (b1.book_id == bid) = true
    · rw [if_pos h1]
      simp [bookCleared]
    · rw [if_neg h1] at hid ⊢
      exact absurd (beq_iff_eq.mpr hid) h1
  · rw [hrb]
    have hnone : ∀ x ∈ db.checkouts.map (fun c =>
        if c.checkout_id == nextCheckoutId db then
          checkoutClosed c now2
        else c),
        ¬((x.checkout_id == nextCheckoutId db) = true) := by
      intro x hx hpx
      obtain ⟨c, hc, rfl⟩ := List.mem_map.mp hx
      rw [if_neg (hfresh c hc)] at hpx
      exact hfresh c hc hpx
    show ((db.checkouts ++ [newCheckoutRow db bid uid now1]).map (fun c =>
        if c.checkout_id == nextCheckoutId db then
          checkoutClosed c now2
        else c)).find? (fun c => c.checkout_id == nextCheckoutId db)
      = some (⟨nextCheckoutId db, bid, uid, now1, some now2,
               now1 + loanPeriod, 1⟩ : Checkout)
    rw [List.map_append, find?_append_of_none hnone]
    simp [List.find?, newCheckoutRow, checkoutClosed]

/-- Witness for C2: checkout of book 1 by user 1 at time 1000, returned
at time 2000 via the produced id 3, restores book 1 to available and
closes ledger row 3 with return date 2000 ≥ checkout date 1000. -/
theorem C2_checkout_return_round_trip_witness :
    (checkout_book exDB 1 1 1000).1
      = .created (nextCheckoutId exDB) 1 1 (1000 + loanPeriod) ∧
    (return_book (checkout_book exDB 1 1 1000).2
        (nextCheckoutId exDB) 2000).1
      = .returned (nextCheckoutId exDB) 1 2000 ∧
    (∀ b' ∈ (return_book (checkout_book exDB 1 1 1000).2
                (nextCheckoutId exDB) 2000).2.books,
        b'.book_id = 1 →
        b'.is_booked = 0 ∧ b'.booked_by_user_id = none ∧
          b'.due_date = none) ∧
    ((return_book (checkout_book exDB 1 1 1000).2
        (nextCheckoutId exDB) 2000).2.checkouts.find?
          (fun c => c.checkout_id == nextCheckoutId exDB)
      = some (⟨nextCheckoutId exDB, 1, 1, 1000, some 2000,
               1000 + loanPeriod, 1⟩ : Checkout)) ∧
    1000 ≤ 2000 :=
  C2_checkout_return_round_trip exDB 1 1 1000 2000 exBookAvail
    (by decide) (by decide) (by decide) (by decide)

/-- Closing one ledger row only shrinks the open set: the rows still open
afterwards form a sublist of the rows open before. -/
theorem open_after_close (cid now : Nat) (l : List Checkout) :
    ((l.map (fun c =>
        if c.checkout_id == cid then checkoutClosed c now else c)).filter
      (fun c => c.is_returned == 0)).Sublist
      (l.filter (fun c => c.is_returned == 0)) := by
  induction l with
  | nil => simp
  | cons x xs ih =>
    by_cases hx : x.checkout_id = cid <;>
      by_cases hr : x.is_returned = 0 <;>
        simp [hx, hr, checkoutClosed, List.filter_cons] at ih ⊢ <;>
        first
          | exact ih.cons₂ x
          | exact ih.cons x
          | exact ih

/-- Claim C5: from a consistent state, each book has at most one open
ledger row, and both checkout and return preserve consistency (hence the
at-most-one-open-row property along every run of the engine). -/
theorem C5_ledger_invariant (db : DB) (bid uid cid now : Nat)
    (h : Consistent db) :
    (∀ bookId : Nat,
        ((openCheckouts db).filter
          (fun c => c.book_id == bookId)).length ≤ 1) ∧
    Consistent (checkout_book db bid uid now).2 ∧
    Consistent (return_book db cid now).2 := by
  refine ⟨fun bookId =>
    count_le_one_of_nodup_map (fun c : Checkout => c.book_id)
      (openCheckouts db) h.1 bookId, ?_, ?_⟩
  · cases hu : db.users.find? (fun u => u.user_id == uid) with
    | none =>
      have he : (checkout_book db bid uid now).2 = db := by
        simp [checkout_book, hu]
      rw [he]
      exact h
    | some u =>
      cases hb : db.books.find? (fun x => x.book_id == bid) with
      | none =>
        have he : (checkout_book db bid uid now).2 = db := by
          simp [checkout_book, hu, hb]
        rw [he]
        exact h
      | some b =>
        by_cases hbk : (b.is_booked == 1) = true
        · have he : (checkout_book db bid uid now).2 = db := by
            simp [checkout_book, hu, hb, hbk]
          rw [he]
          exact h
        · have hck : (checkout_book db bid uid now).2
              = ⟨db.users,
                 db.books.map (fun x =>
                   if x.book_id == bid then
                     bookCheckedOut x uid (now + loanPeriod)
                   else x),
                 db.checkouts ++ [newCheckoutRow db bid uid now]⟩ := by
            simp [checkout_book, hu, hb, hbk, newCheckoutRow]
          rw [hck]
          have hbmem : b ∈ db.books := List.mem_of_find?_eq_some hb
          have hbid : b.book_id = bid := by simpa using List.find?_some hb
          have hnotbooked : b.is_booked ≠ 1 := fun he =>
            hbk (beq_iff_eq.mpr he)
          have hnoopen : ∀ c ∈ db.checkouts,
              c.is_returned = 0 → c.book_id ≠ bid := by
            intro c hc hr0 hcb
            exact hnotbooked
              (h.2.1 c hc hr0 b hbmem (by rw [hbid, hcb]))
          unfold Consistent
          have hopen : openCheckouts
              ⟨db.users,
               db.books.map (fun x =>
                 if x.book_id == bid then
                   bookCheckedOut x uid (now + loanPeriod)
                 else x),
               db.checkouts ++ [newCheckoutRow db bid uid now]⟩
              = openCheckouts db ++ [newCheckoutRow db bid uid now] := by
            unfold openCheckouts
            rw [List.filter_append]
            simp [newCheckoutRow]
          refine ⟨?_, ?_, ?_⟩
          · rw [hopen, List.map_append, List.nodup_append]
            refine ⟨h.1, by simp, ?_⟩
            intro a ha hamem
            simp only [List.map_cons, List.map_nil, List.mem_singleton,
              newCheckoutRow] at hamem
            obtain ⟨c, hc, rfl⟩ := List.mem_map.mp ha
            have hcmem : c ∈ db.checkouts := (List.mem_filter.mp hc).1
            have hcr : c.is_returned = 0 := by
              have hh := (List.mem_filter.mp hc).2
              simpa using hh
            exact hnoopen c hcmem hcr hamem
          · intro c hc hr0 b' hb' hbeq
            rw [List.mem_append] at hc
            obtain ⟨b0, hb0, rfl⟩ := List.mem_map.mp hb'
            rcases hc with hc | hc
            · by_cases h0 : (b0.book_id == bid) = true
              · rw [if_pos h0]
                simp [bookCheckedOut]
              · rw [if_neg h0] at hbeq ⊢
                exact h.2.1 c hc hr0 b0 hb0 hbeq
            · rw [List.mem_singleton] at hc
              subst hc
              by_cases h0 : (b0.book_id == bid) = true
              · rw [if_pos h0]
                simp [bookCheckedOut]
              · rw [if_neg h0] at hbeq ⊢
                simp only [newCheckoutRow] at hbeq
                exact absurd (beq_iff_eq.mpr hbeq) h0
          · intro c hc
            rw [List.mem_append] at hc
            rcases hc with hc | hc
            · exact h.2.2 c hc
            · rw [List.mem_singleton] at hc
              subst hc
              simp [newCheckoutRow]
  · cases hc : db.checkouts.find? (fun c => c.checkout_id == cid) with
    | none =>
      have he : (return_book db cid now).2 = db := by
        simp [return_book, hc]
      rw [he]
      exact h
    | some co =>
      by_cases hr : (co.is_returned == 1) = true
      · have he : (return_book db cid now).2 = db := by
          simp [return_book, hc, hr]
        rw [he]
        exact h
      · have hco_mem : co ∈ db.checkouts := List.mem_of_find?_eq_some hc
        have hco_id : co.checkout_id = cid := by simpa using List.find?_some hc
        have hco_r0 : co.is_returned = 0 := by
          have hle := h.2.2 co hco_mem
          have hne : co.is_returned ≠ 1 := fun he => hr (beq_iff_eq.mpr he)
          omega
        have hrt : (return_book db cid now).2
            = ⟨db.users,
               db.books.map (fun x =>
                 if x.book_id == co.book_id then bookCleared x else x),
               db.checkouts.map (fun c =>
                 if c.checkout_id == cid then checkoutClosed c now
                 else c)⟩ := by
          simp [return_book, hc, hr]
        rw [hrt]
        unfold Consistent
        refine ⟨?_, ?_, ?_⟩
        · exact List.Nodup.sublist
            (List.Sublist.map _ (open_after_close cid now db.checkouts)) h.1
        · intro c' hc' hr0' b' hb' hbeq'
          obtain ⟨c0, hc0, rfl⟩ := List.mem_map.mp hc'
          by_cases h0 : (c0.checkout_id == cid) = true
          · rw [if_pos h0] at hr0'
            simp [checkoutClosed] at hr0'
          · rw [if_neg h0] at hr0' hbeq'
            obtain ⟨b0, hb0, rfl⟩ := List.mem_map.mp hb'
            by_cases hbb : (b0.book_id == co.book_id) = true
            · rw [if_pos hbb] at hbeq'
              simp only [bookCleared] at hbeq'
              have hc0open : c0 ∈ openCheckouts db :=
                List.mem_filter.mpr ⟨hc0, by simp [hr0']⟩
              have hcoopen : co ∈ openCheckouts db :=
                List.mem_filter.mpr ⟨hco_mem, by simp [hco_r0]⟩
              have hne : c0 ≠ co := by
                intro he
                rw [he] at h0
                exact h0 (beq_iff_eq.mpr hco_id)
              have hdiff := nodup_map_ne h.1 hc0open hcoopen hne
              exact absurd (by rw [← hbeq', beq_iff_eq.mp hbb]) hdiff
            · rw [if_neg hbb] at hbeq' ⊢
              exact h.2.1 c0 hc0 hr0' b0 hb0 hbeq'
        · intro c' hc'
          obtain ⟨c0, hc0, rfl⟩ := List.mem_map.mp hc'
          by_cases h0 : (c0.checkout_id == cid) = true
          · rw [if_pos h0]
            simp [checkoutClosed]
          · rw [if_neg h0]
            exact h.2.2 c0 hc0

/-- Witness for C5: the fixture store is consistent; book 2's single open
row is the at-most-one bound, and a concrete checkout and return keep
consistency. -/
theorem C5_ledger_invariant_witness :
    (∀ bookId : Nat,
        ((openCheckouts exDB).filter
          (fun c => c.book_id == bookId)).length ≤ 1) ∧
    Consistent (checkout_book exDB 1 1 500).2 ∧
    Consistent (return_book exDB 1 500).2 :=
  C5_ledger_invariant exDB 1 1 1 500 (by decide)
